import Mathlib

/-!
Shallow embedding of the `bias_fairness` repository (src/data_reader.py,
src/analyzer.py, src/runner.py) and proofs about its behaviour.

The data model follows pandas objects as used by the code: a dataframe is a
list of named typed columns of cells; the sklearn `LabelEncoder` is a single
mutable object whose state we thread explicitly; file access is modelled by a
finite map from paths to parsed dataframes; python exceptions are modelled by
an `Except` error type.  Numeric quantities (flip rates, metrics) are modelled
by exact rationals.
-/

/-- A scalar value held in a dataframe cell: either numeric or a string
(the two dtypes appearing in the `types` dictionaries of data_reader.py). -/
inductive Cell where
  | num (n : Int)
  | str (s : String)
deriving DecidableEq

/-- A named pandas column together with whether its dtype is numeric
(`pd.api.types.is_numeric_dtype`). -/
structure Column where
  name : String
  isNumeric : Bool
  values : List Cell
deriving DecidableEq

/-- A pandas dataframe: an ordered list of named columns. -/
abbrev DataFrame : Type := List Column

/-- State of the single shared `sklearn.preprocessing.LabelEncoder` instance
(`self.__encoder` in data_reader.py): the classes learned by the last fit. -/
structure LabelEncoder where
  classes : List Cell
deriving DecidableEq

/-- Ordering used to model `numpy`'s sorted unique classes inside
`LabelEncoder.fit`. -/
def Cell.le : Cell → Cell → Bool
  | .num a, .num b => a ≤ b
  | .num _, .str _ => true
  | .str _, .num _ => false
  | .str a, .str b => a ≤ b

/-- Model of `LabelEncoder.fit_transform(y)`: the classes are recomputed from
scratch as the sorted distinct values of `y` (the previous encoder state is
discarded), and each value is mapped to its index among the classes. -/
def LabelEncoder.fit_transform (_enc : LabelEncoder) (ys : List Cell) :
    List Int × LabelEncoder :=
  let classes := ys.dedup.insertionSort fun a b => Cell.le a b = true
  (ys.map fun y => ((classes.indexOf y : ℕ) : Int), ⟨classes⟩)

/-- One step of `DataReader.__encode_dataframe`: a numeric column is left
untouched, a non-numeric column is replaced by
`self.__encoder.fit_transform(y = df[colName])` (data_reader.py lines
141-143), mutating the shared encoder. -/
def encodeColumn (enc : LabelEncoder) (c : Column) : Column × LabelEncoder :=
  if c.isNumeric then (c, enc)
  else
    let p := enc.fit_transform c.values
    (⟨c.name, true, p.1.map Cell.num⟩, p.2)

/-- `DataReader.__encode_dataframe`: encode every non-numeric column in order,
threading the shared encoder state through the columns. -/
def encode_dataframe (enc : LabelEncoder) : DataFrame → DataFrame × LabelEncoder
  | [] => ([], enc)
  | c :: cs =>
    let p := encodeColumn enc c
    let q := encode_dataframe p.2 cs
    (p.1 :: q.1, q.2)

/-- A python exception as raised by data_reader.py. -/
inductive PyError where
  | valueError (msg : String)
  | ioError (msg : String)
deriving DecidableEq

/-- The filesystem visible to the reader: a finite map from paths to the
dataframe `pd.read_csv` would parse at that path.  A missing key models a
missing file. -/
abbrev FileSystem : Type := List (String × DataFrame)

/-- `Path(p).is_file()`: the path exists in the filesystem. -/
def isFile (fs : FileSystem) (p : String) : Bool :=
  (List.lookup p fs).isSome

/-- The validated configuration of a constructed `DataReader` object:
column names with their dtypes, the two paths, and the label and
sensitive-attribute column names. -/
structure DataReader where
  types : List (String × Bool)
  trainingPath : String
  testPath : String
  labelColumnNames : List String
  sensitiveAttributeColumnNames : List String
deriving DecidableEq

/-- The declared feature names, `list(types.keys())`. -/
def DataReader.features (types : List (String × Bool)) : List String :=
  types.map Prod.fst

/-- `DataReader.__init__` (data_reader.py lines 46-92): checks that both data
paths exist and that the label and sensitive-attribute column names are
subsets of the declared columns, raising `ValueError` otherwise. -/
def DataReader.init (fs : FileSystem) (types : List (String × Bool))
    (training_data_path test_data_path : String)
    (label_column_names sensitive_attribute_column_names : List String) :
    Except PyError DataReader :=
  if !(isFile fs training_data_path) then
    .error (.valueError "Path to training data file does not exist.")
  else if !(isFile fs test_data_path) then
    .error (.valueError "Path to test data file does not exist.")
  else if !(label_column_names.all fun n => (DataReader.features types).contains n) then
    .error (.valueError "Label column names must be a subset of the column names provided in types.")
  else if !(sensitive_attribute_column_names.all fun n => (DataReader.features types).contains n) then
    .error (.valueError "Sensitive attribute column names must be a subset of the column names provided in types.")
  else
    .ok ⟨types, training_data_path, test_data_path,
         label_column_names, sensitive_attribute_column_names⟩

/-- `df[names]` column projection used for the label and sensitive-attribute
frames. -/
def selectColumns (df : DataFrame) (names : List String) : DataFrame :=
  names.filterMap fun n => df.find? fun c => c.name == n

/-- `DataReader.__read_file` (data_reader.py lines 94-125): parse the csv at
the training or test path and project out the label and sensitive-attribute
columns; a missing file raises `IOError`. -/
def DataReader.read_file (dr : DataReader) (fs : FileSystem) (is_test : Bool) :
    Except PyError (DataFrame × DataFrame × DataFrame) :=
  match List.lookup (if is_test then dr.testPath else dr.trainingPath) fs with
  | none => .error (.ioError "{t} file not found at the location specified")
  | some df =>
      .ok (df, selectColumns df dr.labelColumnNames,
           selectColumns df dr.sensitiveAttributeColumnNames)

/-- `DataReader.__read_encoded_dataframe` (data_reader.py lines 146-166):
read the file, then encode the data, labels and sensitive attributes in that
order with the shared encoder instance. -/
def DataReader.read_encoded_dataframe (dr : DataReader) (fs : FileSystem)
    (enc : LabelEncoder) (is_test : Bool) :
    Except PyError (DataFrame × DataFrame × DataFrame) × LabelEncoder :=
  match dr.read_file fs is_test with
  | .error e => (.error e, enc)
  | .ok (data, labels, sensitive_attributes) =>
    let p1 := encode_dataframe enc data
    let p2 := encode_dataframe p1.2 labels
    let p3 := encode_dataframe p2.2 sensitive_attributes
    (.ok (p1.1, p2.1, p3.1), p3.2)

/-- `DataReader.training_data` (data_reader.py lines 168-177). -/
def DataReader.training_data (dr : DataReader) (fs : FileSystem)
    (enc : LabelEncoder) :
    Except PyError (DataFrame × DataFrame × DataFrame) × LabelEncoder :=
  dr.read_encoded_dataframe fs enc false

/-- `DataReader.test_data` (data_reader.py lines 206-215). -/
def DataReader.test_data (dr : DataReader) (fs : FileSystem)
    (enc : LabelEncoder) :
    Except PyError (DataFrame × DataFrame × DataFrame) × LabelEncoder :=
  dr.read_encoded_dataframe fs enc true

/-- `DataReader.training_data_label_bias` (data_reader.py lines 179-204):
validate `flip_rate`, then read and encode the training data.  The body
contains only the comment `# randomly flip labels` where flipping would
happen, so the data is returned unchanged. -/
def DataReader.training_data_label_bias (dr : DataReader) (fs : FileSystem)
    (enc : LabelEncoder) (flip_rate : ℚ) :
    Except PyError (DataFrame × DataFrame × DataFrame) × LabelEncoder :=
  if flip_rate > 1 ∨ flip_rate < 0 then
    (.error (.valueError "flip_rate must be between 0 and 1 inclusive"), enc)
  else
    dr.read_encoded_dataframe fs enc false

/-!
Model of src/analyzer.py.  The sklearn / fairlearn fitting and metric
computations inside one attempt of `__label_bias_fetch_train_constrain` are
consumed as black boxes; an attempt is therefore modelled by an oracle
`ℕ → Option Metrics` giving, for each attempt number, either the metrics the
attempt computes or `none` when the attempt raises an exception.
-/

/-- The four metric values one successful attempt computes (unconstrained and
demographic-parity-constrained accuracy and parity ratio). -/
structure Metrics where
  uncAccuracy : ℚ
  uncParity : ℚ
  dpAccuracy : ℚ
  dpParity : ℚ
deriving DecidableEq

/-- One row of the `result_columns` table built at analyzer.py lines 94-104. -/
structure ResultRow where
  flip_rate : ℚ
  confidence_threshold : ℚ
  uncAccuracy : ℚ
  uncParity : ℚ
  dpAccuracy : ℚ
  dpParity : ℚ
deriving DecidableEq

/-- `result.loc[0] = [flip_rate, confidence_threshold, ...metrics]`. -/
def mkResultRow (flip_rate confidence_threshold : ℚ) (m : Metrics) : ResultRow :=
  ⟨flip_rate, confidence_threshold, m.uncAccuracy, m.uncParity, m.dpAccuracy, m.dpParity⟩

/-- Ceiling of a rational, written out so that it evaluates by kernel
reduction: `ratCeil q = -⌊-q⌋`. -/
def ratCeil (q : ℚ) : Int :=
  -((-q).num / ((-q).den : Int))

/-- Number of elements of `np.arange(start, stop, step)` under exact rational
arithmetic: `max(ceil((stop - start) / step), 0)`. -/
def arangeLen (start stop step : ℚ) : ℕ :=
  (ratCeil ((stop - start) / step)).toNat

/-- `np.arange(start, stop, step).tolist()` under exact rational arithmetic:
the i-th element is `start + i * step`. -/
def arange (start stop step : ℚ) : List ℚ :=
  (List.range (arangeLen start stop step)).map fun i : ℕ => start + (i : ℚ) * step

/-- The parameter-point grid of analyzer.py line 50:
`[(flip_rate, 1) for flip_rate in np.arange(range_min, range_max + range_interval, range_interval)]`. -/
def variable_args (range_min range_max range_interval : ℚ) : List (ℚ × ℚ) :=
  (arange range_min (range_max + range_interval) range_interval).map
    fun flip_rate => (flip_rate, 1)

/-- Outcome of `__label_bias_fetch_train_constrain`: either a result row with
the number of failed attempts before the first success, or the
`UnboundLocalError` raised by `return result, failures` when all five
attempts failed and `result` was never assigned. -/
inductive EvalOutcome where
  | ok (row : ResultRow) (failures : ℕ)
  | unboundLocalError
deriving DecidableEq

/-- The `for failures in range(5): try ... except: continue; break` loop of
analyzer.py lines 77-107, starting from attempt number `i` with `r` attempts
remaining: returns the first success (its metrics and its attempt index,
which is the value of `failures` at loop exit) together with the number of
attempts actually performed. -/
def run_attempts (attempt : ℕ → Option Metrics) : ℕ → ℕ → Option (Metrics × ℕ) × ℕ
  | _, 0 => (none, 0)
  | i, r + 1 =>
    match attempt i with
    | some m => (some (m, i), 1)
    | none =>
      let p := run_attempts attempt (i + 1) r
      (p.1, p.2 + 1)

/-- `__label_bias_fetch_train_constrain` (analyzer.py lines 67-109): run up to
five attempts; on the first success return the result row and the failure
count; when all five attempts raised, `return result, failures` reads the
never-assigned local `result`, which raises `UnboundLocalError`.  The second
component is the number of attempts performed. -/
def label_bias_fetch_train_constrain (attempt : ℕ → Option Metrics)
    (flip_rate confidence_threshold : ℚ) : EvalOutcome × ℕ :=
  let p := run_attempts attempt 0 5
  (match p.1 with
   | some (m, k) => .ok (mkResultRow flip_rate confidence_threshold m) k
   | none => .unboundLocalError,
   p.2)

/-- An observable action of one attempt body (analyzer.py lines 79-92). -/
inductive FitEvent where
  | callTrainingDataLabelBias (flip_rate confidence_threshold : ℚ)
  | fitLogisticRegression
  | fitMitigatorDP
  | predictUnc
  | predictDP
deriving DecidableEq

/-- What one attempt body does before computing metrics: which training table
and estimator it uses, and which reader / fitting calls it performs. -/
structure AttemptPlan where
  training_table : DataFrame × DataFrame
  usesInitialEstimator : Bool
  events : List FitEvent
deriving DecidableEq

/-- The branch structure of one attempt of `__label_bias_fetch_train_constrain`
(analyzer.py lines 79-92): at `flip_rate == 0` the initial training table and
the initial estimator are reused directly; otherwise a bias-injected table is
requested via `dataReader.training_data_label_bias(flip_rate,
confidence_threshold, initial_estimator)` and a fresh `LogisticRegression` is
fitted on it.  In both branches the demographic-parity mitigator is fitted
and both models predict on the test set. -/
def attempt_body_plan (initial_data initial_labels : DataFrame)
    (biased_table : DataFrame × DataFrame)
    (flip_rate confidence_threshold : ℚ) : AttemptPlan :=
  if flip_rate = 0 then
    ⟨(initial_data, initial_labels), true,
     [.fitMitigatorDP, .predictUnc, .predictDP]⟩
  else
    ⟨biased_table, false,
     [.callTrainingDataLabelBias flip_rate confidence_threshold,
      .fitLogisticRegression, .fitMitigatorDP, .predictUnc, .predictDP]⟩

/-- A row of the final results table: a point result stamped with the trial
number inserted by `trial_result.insert(0, 'Trial', trial_num)`. -/
structure TrialRow where
  trial : ℕ
  row : ResultRow
deriving DecidableEq

/-- The `(trial, flip_rate, confidence_threshold)` key of a sweep row. -/
def TrialRow.key (t : TrialRow) : ℕ × ℚ × ℚ :=
  (t.trial, t.row.flip_rate, t.row.confidence_threshold)

/-- Evaluate `f` on every element, succeeding only when every evaluation
succeeds (a worker raising an uncaught exception aborts the whole
`pool.starmap`, and a failing trial aborts `pd.concat` over the trials). -/
def collectResults {α β : Type} (f : α → Option β) : List α → Option (List β)
  | [] => some []
  | a :: as =>
    match f a, collectResults f as with
    | some b, some bs => some (b :: bs)
    | _, _ => none

/-- The pair a pool worker hands back for one parameter point: the result row
and the failure count, or `none` when the worker raised
(`UnboundLocalError` after five failed attempts). -/
def point_outcome (attempt : ℚ × ℚ → ℕ → Option Metrics) (p : ℚ × ℚ) :
    Option (ResultRow × ℕ) :=
  match label_bias_fetch_train_constrain (attempt p) p.1 p.2 with
  | (.ok r f, _) => some (r, f)
  | (.unboundLocalError, _) => none

/-- `__label_bias_trial` (analyzer.py lines 34-65): evaluate every grid point,
concatenate the one-row results in dispatch order, stamp the trial number,
and sum the failure counts.  The attempt oracle is indexed by the parameter
point. -/
def label_bias_trial (attempt : ℚ × ℚ → ℕ → Option Metrics)
    (range_interval range_max range_min : ℚ) (trial_num : ℕ) :
    Option (List TrialRow × ℕ) :=
  match collectResults (point_outcome attempt)
      (variable_args range_min range_max range_interval) with
  | none => none
  | some rs =>
      some (rs.map fun r => ⟨trial_num, r.1⟩, (rs.map Prod.snd).sum)

/-- `analyze_label_bias` (analyzer.py lines 23-32): run the trials for trial
numbers `1 .. trial_count` and concatenate their tables in order.  The
attempt oracle is additionally indexed by the trial number. -/
def analyze_label_bias (attempt : ℕ → ℚ × ℚ → ℕ → Option Metrics)
    (range_interval range_max range_min : ℚ) (trial_count : ℕ) :
    Option (List TrialRow) :=
  match collectResults
      (fun t => label_bias_trial (attempt t) range_interval range_max range_min t)
      (List.range' 1 trial_count) with
  | none => none
  | some ts => some (ts.map Prod.fst).flatten

/-- Nondeterministic completion model of `pool.starmap`: workers finish in an
arbitrary order and each deposits its result in the buffer slot of its own
argument position; slots of distinct points never collide. -/
def apply_completions {α : Type} (eval : ℕ → α) :
    List ℕ → (ℕ → Option α) → ℕ → Option α
  | [], buffer => buffer
  | i :: rest, buffer =>
      apply_completions eval rest fun j => if j = i then some (eval i) else buffer j

/-- After the barrier, `pool.starmap` returns the buffer read back in argument
(dispatch) order, whatever the completion order was. -/
def pool_starmap_gather {α : Type} (eval : ℕ → α) (order : List ℕ) (n : ℕ) :
    List (Option α) :=
  (List.range n).map (apply_completions eval order fun _ => none)

/-- The trial's gathered worker results (analyzer.py lines 49-61) under a
given worker completion order: dispatch the grid, let the workers complete in
`order`, and read the buffer back in dispatch order. -/
def trial_pool_results (rowOf : ℚ × ℚ → ResultRow)
    (range_interval range_max range_min : ℚ) (order : List ℕ) :
    List (Option ResultRow) :=
  let args := variable_args range_min range_max range_interval
  pool_starmap_gather (fun i => rowOf (args.getD i (0, 0))) order args.length

/-!
Interface arities.  `DataReader`'s public operations and the call sites in
the driver (analyzer.py) are summarised by the number of positional
arguments passed (after `self`) and the number of variables the returned
tuple is unpacked into.
-/

/-- Signature of a `DataReader` method: required positional parameters after
`self`, and the arity of the returned tuple. -/
structure MethodSig where
  paramCount : ℕ
  returnTupleArity : ℕ
deriving DecidableEq

/-- A call site in the driver: positional arguments passed and the number of
variables the result is unpacked into. -/
structure CallSite where
  argsPassed : ℕ
  unpackArity : ℕ
deriving DecidableEq

/-- `def training_data(self) -> Tuple[DataFrame, DataFrame, DataFrame]`
(data_reader.py lines 168-177). -/
def training_data_sig : MethodSig := ⟨0, 3⟩

/-- `def test_data(self) -> Tuple[DataFrame, DataFrame, DataFrame]`
(data_reader.py lines 206-215). -/
def test_data_sig : MethodSig := ⟨0, 3⟩

/-- `def training_data_label_bias(self, flip_rate: float) -> Tuple[...]`
(data_reader.py line 179): one required positional parameter, 3-tuple
return. -/
def training_data_label_bias_sig : MethodSig := ⟨1, 3⟩

/-- `initial_data, initial_labels = dataReader.training_data()`
(analyzer.py line 40): no arguments, unpacked into two variables. -/
def trial_training_data_call : CallSite := ⟨0, 2⟩

/-- `test_data, test_labels = dataReader.test_data()` (analyzer.py line 41). -/
def trial_test_data_call : CallSite := ⟨0, 2⟩

/-- `training_data, training_labels = dataReader.training_data_label_bias(flip_rate, confidence_threshold, initial_estimator)`
(analyzer.py line 83): three positional arguments, unpacked into two
variables. -/
def fetch_label_bias_call : CallSite := ⟨3, 2⟩

/-- A call site is accepted by a signature when the positional-argument count
matches the parameter count and the unpack arity matches the returned tuple
arity. -/
def callCompatible (s : MethodSig) (c : CallSite) : Bool :=
  c.argsPassed == s.paramCount && c.unpackArity == s.returnTupleArity

/-!
Theorems.
-/

theorem ratCeil_eq_ceil (q : ℚ) : ratCeil q = ⌈q⌉ := by
  rw [← neg_inj, ← Int.floor_neg]
  rw [ratCeil, Rat.floor_def]
  simp

/-- C1.  The spec states the driver's calls into the Data Provider are
accepted and unpack the returned triples at matching arity.  The code
violates this at every one of the three call sites: `training_data()` and
`test_data()` return 3-tuples that the driver unpacks into two variables,
and `training_data_label_bias` accepts a single positional argument
`flip_rate` while the driver passes three. -/
theorem driver_datareader_interface_mismatch :
    callCompatible training_data_sig trial_training_data_call = false ∧
    callCompatible test_data_sig trial_test_data_call = false ∧
    callCompatible training_data_label_bias_sig fetch_label_bias_call = false := by
  decide

theorem run_attempts_success (attempt : ℕ → Option Metrics) (m : Metrics) :
    ∀ (k i r : ℕ), k < r → (∀ j, j < k → attempt (i + j) = none) →
      attempt (i + k) = some m →
      run_attempts attempt i r = (some (m, i + k), k + 1) := by
  intro k
  induction k with
  | zero =>
    intro i r hr hfail hsucc
    obtain ⟨r', rfl⟩ : ∃ r', r = r' + 1 := ⟨r - 1, by omega⟩
    rw [Nat.add_zero] at hsucc
    simp [run_attempts, hsucc]
  | succ k ih =>
    intro i r hr hfail hsucc
    obtain ⟨r', rfl⟩ : ∃ r', r = r' + 1 := ⟨r - 1, by omega⟩
    have h0 : attempt i = none := by
      have h := hfail 0 (Nat.succ_pos k)
      rwa [Nat.add_zero] at h
    have hrec : run_attempts attempt (i + 1) r' = (some (m, i + 1 + k), k + 1) := by
      refine ih (i + 1) r' (by omega) (fun j hj => ?_) ?_
      · have h := hfail (j + 1) (by omega)
        rwa [show i + (j + 1) = i + 1 + j by omega] at h
      · rwa [show i + (k + 1) = i + 1 + k by omega] at hsucc
    simp only [run_attempts, h0, hrec]
    rw [show i + 1 + k = i + (k + 1) from by omega]

theorem run_attempts_exhausted (attempt : ℕ → Option Metrics) :
    ∀ (r i : ℕ), (∀ j, j < r → attempt (i + j) = none) →
      run_attempts attempt i r = (none, r) := by
  intro r
  induction r with
  | zero => intro i _; rfl
  | succ r ih =>
    intro i hfail
    have h0 : attempt i = none := by
      have h := hfail 0 (Nat.succ_pos r)
      rwa [Nat.add_zero] at h
    have hrec : run_attempts attempt (i + 1) r = (none, r) := by
      refine ih (i + 1) (fun j hj => ?_)
      have h := hfail (j + 1) (by omega)
      rwa [show i + (j + 1) = i + 1 + j by omega] at h
    simp [run_attempts, h0, hrec]

/-- C3.  If the first `k < 5` attempts of a Point Evaluator raise and attempt
`k+1` succeeds with metrics `m`, then `__label_bias_fetch_train_constrain`
returns the successful result row paired with failure count exactly `k`,
having performed `k + 1 ≤ 5` attempts (it stops on the first success). -/
theorem retry_first_success (attempt : ℕ → Option Metrics)
    (flip_rate confidence_threshold : ℚ) (k : ℕ) (m : Metrics)
    (hk : k < 5) (hfail : ∀ i, i < k → attempt i = none)
    (hsucc : attempt k = some m) :
    label_bias_fetch_train_constrain attempt flip_rate confidence_threshold =
      (.ok (mkResultRow flip_rate confidence_threshold m) k, k + 1) ∧
    k + 1 ≤ 5 := by
  have h := run_attempts_success attempt m k 0 5 hk
    (fun j hj => by simpa using hfail j hj) (by simpa using hsucc)
  refine ⟨?_, by omega⟩
  simp [label_bias_fetch_train_constrain, h]

/-- Witness for C3 at a concrete input: the first two attempts fail, the
third succeeds, and the evaluator reports failure count 2 after 3 attempts. -/
theorem retry_first_success_witness :
    (2 : ℕ) < 5 ∧
    (label_bias_fetch_train_constrain
        (fun i => if i < 2 then none else some ⟨1, 1, 1, 1⟩) 0 1 =
      (.ok (mkResultRow 0 1 ⟨1, 1, 1, 1⟩) 2, 2 + 1) ∧ 2 + 1 ≤ 5) :=
  ⟨by decide,
   retry_first_success (fun i => if i < 2 then none else some ⟨1, 1, 1, 1⟩)
     0 1 2 ⟨1, 1, 1, 1⟩ (by decide) (fun i hi => by simp [hi]) (by simp)⟩

/-- C2.  At a Parameter Point whose evaluation raises on all 5 attempts, the
code falls out of the retry loop with the local `result` never assigned, so
`return result, failures` raises `UnboundLocalError` (with `failures = 4`
counting 5 performed attempts): it does not return a sentinel row or a
deliberate error. -/
theorem retry_exhausted_unbound_local :
    label_bias_fetch_train_constrain (fun _ => none) 0 1 =
      (.unboundLocalError, 5) := by
  have h := run_attempts_exhausted (fun _ : ℕ => none (α := Metrics)) 5 0
    (fun _ _ => rfl)
  simp [label_bias_fetch_train_constrain, h]

/-- C5.  At `flip_rate == 0` the attempt body of the Point Evaluator reuses
the trial's baseline training table and the initial (reference) estimator:
it performs no `training_data_label_bias` call and fits no new
`LogisticRegression`. -/
theorem flip_rate_zero_reuses_baseline (initial_data initial_labels : DataFrame)
    (biased_table : DataFrame × DataFrame) (confidence_threshold : ℚ) :
    (attempt_body_plan initial_data initial_labels biased_table 0
        confidence_threshold).training_table = (initial_data, initial_labels) ∧
    (attempt_body_plan initial_data initial_labels biased_table 0
        confidence_threshold).usesInitialEstimator = true ∧
    (∀ fr ct, FitEvent.callTrainingDataLabelBias fr ct ∉
        (attempt_body_plan initial_data initial_labels biased_table 0
          confidence_threshold).events) ∧
    FitEvent.fitLogisticRegression ∉
        (attempt_body_plan initial_data initial_labels biased_table 0
          confidence_threshold).events := by
  refine ⟨?_, ?_, ?_, ?_⟩ <;> simp [attempt_body_plan]

/-- C9.  For every in-range flip rate, `training_data_label_bias` returns
exactly what `training_data` returns (same triple, same final encoder
state): no label is ever flipped and `flip_rate` only participates in the
range check. -/
theorem label_bias_returns_training_data (dr : DataReader) (fs : FileSystem)
    (enc : LabelEncoder) (flip_rate : ℚ)
    (h0 : 0 ≤ flip_rate) (h1 : flip_rate ≤ 1) :
    dr.training_data_label_bias fs enc flip_rate = dr.training_data fs enc := by
  rw [DataReader.training_data_label_bias, DataReader.training_data,
    if_neg (not_or.mpr ⟨not_lt.mpr h1, not_lt.mpr h0⟩)]

/-- Witness for C9 at a concrete reader, filesystem and flip rate 1. -/
theorem label_bias_returns_training_data_witness :
    (0 : ℚ) ≤ 1 ∧ (1 : ℚ) ≤ 1 ∧
    DataReader.training_data_label_bias
        ⟨[("Target", false)], "train.csv", "test.csv", ["Target"], []⟩ [] ⟨[]⟩ 1 =
      DataReader.training_data
        ⟨[("Target", false)], "train.csv", "test.csv", ["Target"], []⟩ [] ⟨[]⟩ :=
  ⟨zero_le_one, le_refl 1,
   label_bias_returns_training_data _ _ _ 1 zero_le_one (le_refl 1)⟩

theorem encodeColumn_state_independent (c : Column) (e1 e2 : LabelEncoder) :
    (encodeColumn e1 c).1 = (encodeColumn e2 c).1 := by
  by_cases h : c.isNumeric <;>
    simp [encodeColumn, h, LabelEncoder.fit_transform]

theorem encode_dataframe_state_independent :
    ∀ (df : DataFrame) (e1 e2 : LabelEncoder),
      (encode_dataframe e1 df).1 = (encode_dataframe e2 df).1 := by
  intro df
  induction df with
  | nil => intro e1 e2; rfl
  | cons c cs ih =>
    intro e1 e2
    simp only [encode_dataframe]
    rw [encodeColumn_state_independent c e1 e2,
      ih (encodeColumn e1 c).2 (encodeColumn e2 c).2]

theorem read_encoded_state_independent (dr : DataReader) (fs : FileSystem)
    (is_test : Bool) (e1 e2 : LabelEncoder) :
    (dr.read_encoded_dataframe fs e1 is_test).1 =
      (dr.read_encoded_dataframe fs e2 is_test).1 := by
  cases h : dr.read_file fs is_test with
  | error e => simp [DataReader.read_encoded_dataframe, h]
  | ok t =>
    obtain ⟨d, l, s⟩ := t
    simp only [DataReader.read_encoded_dataframe, h, Except.ok.injEq,
      Prod.mk.injEq]
    refine ⟨encode_dataframe_state_independent d e1 e2, ?_, ?_⟩ <;>
      apply encode_dataframe_state_independent

/-- C10.  `training_data()` and `test_data()` are deterministic despite the
single shared `LabelEncoder`: whatever encoder state was left behind by
previous calls, the returned triples are equal, because `fit_transform`
refits the encoder from scratch on every non-numeric column. -/
theorem encoded_outputs_encoder_state_independent (dr : DataReader)
    (fs : FileSystem) (e1 e2 : LabelEncoder) :
    (dr.training_data fs e1).1 = (dr.training_data fs e2).1 ∧
    (dr.test_data fs e1).1 = (dr.test_data fs e2).1 :=
  ⟨read_encoded_state_independent dr fs false e1 e2,
   read_encoded_state_independent dr fs true e1 e2⟩

theorem read_file_no_valueError (dr : DataReader) (fs : FileSystem)
    (is_test : Bool) (msg : String) :
    dr.read_file fs is_test ≠ .error (.valueError msg) := by
  rw [DataReader.read_file]
  cases List.lookup (if is_test then dr.testPath else dr.trainingPath) fs <;>
    simp

/-- C8.  The reader fails fast: `training_data_label_bias` raises the
`ValueError` for every out-of-range flip rate — for every filesystem, so
before any data is read, and leaving the encoder untouched — and raises no
`ValueError` for in-range flip rates; `DataReader.__init__` raises a
`ValueError` when a data path does not exist or a label or
sensitive-attribute column name is missing from the declared schema. -/
theorem config_and_validation_errors :
    (∀ (dr : DataReader) (fs : FileSystem) (enc : LabelEncoder) (flip_rate : ℚ),
        flip_rate < 0 ∨ 1 < flip_rate →
        dr.training_data_label_bias fs enc flip_rate =
          (.error (.valueError "flip_rate must be between 0 and 1 inclusive"), enc)) ∧
    (∀ (dr : DataReader) (fs : FileSystem) (enc : LabelEncoder) (flip_rate : ℚ),
        0 ≤ flip_rate → flip_rate ≤ 1 → ∀ msg,
        (dr.training_data_label_bias fs enc flip_rate).1 ≠
          .error (.valueError msg)) ∧
    (∀ (fs : FileSystem) (types : List (String × Bool))
        (trp tep : String) (lns sns : List String),
        (isFile fs trp = false ∨ isFile fs tep = false ∨
          (∃ n ∈ lns, n ∉ DataReader.features types) ∨
          (∃ n ∈ sns, n ∉ DataReader.features types)) →
        ∃ msg, DataReader.init fs types trp tep lns sns =
          .error (.valueError msg)) := by
  refine ⟨?_, ?_, ?_⟩
  · intro dr fs enc fr h
    rw [DataReader.training_data_label_bias, if_pos]
    exact h.symm.imp id id
  · intro dr fs enc fr h0 h1 msg
    rw [DataReader.training_data_label_bias,
      if_neg (not_or.mpr ⟨not_lt.mpr h1, not_lt.mpr h0⟩)]
    cases hrf : dr.read_file fs false with
    | error e =>
      simp only [DataReader.read_encoded_dataframe, hrf]
      intro he
      simp only [Except.error.injEq] at he
      exact read_file_no_valueError dr fs false msg (he ▸ hrf)
    | ok t =>
      obtain ⟨d, l, s⟩ := t
      simp [DataReader.read_encoded_dataframe, hrf]
  · intro fs types trp tep lns sns h
    cases h1 : isFile fs trp with
    | false =>
      exact ⟨"Path to training data file does not exist.",
        by simp only [DataReader.init, h1]; rfl⟩
    | true =>
      cases h2 : isFile fs tep with
      | false =>
        exact ⟨"Path to test data file does not exist.",
          by simp only [DataReader.init, h1, h2]; rfl⟩
      | true =>
        cases h3 : lns.all fun n => (DataReader.features types).contains n with
        | false =>
          exact ⟨"Label column names must be a subset of the column names provided in types.",
            by simp only [DataReader.init, h1, h2, h3]; rfl⟩
        | true =>
          cases h4 : sns.all fun n => (DataReader.features types).contains n with
          | false =>
            exact ⟨"Sensitive attribute column names must be a subset of the column names provided in types.",
              by simp only [DataReader.init, h1, h2, h3, h4]; rfl⟩
          | true =>
            exfalso
            rcases h with h | h | ⟨n, hn, hmem⟩ | ⟨n, hn, hmem⟩
            · rw [h1] at h; cases h
            · rw [h2] at h; cases h
            · exact hmem (by simpa using List.all_eq_true.mp h3 n hn)
            · exact hmem (by simpa using List.all_eq_true.mp h4 n hn)

/-- Witness for C8: a flip rate of 3 is rejected before any read, a flip
rate of 1 never yields a `ValueError`, and construction over an empty
filesystem fails with a `ValueError`. -/
theorem config_and_validation_errors_witness :
    ((3 : ℚ) < 0 ∨ 1 < (3 : ℚ)) ∧
    DataReader.training_data_label_bias
        ⟨[("Target", false)], "train.csv", "test.csv", ["Target"], []⟩ [] ⟨[]⟩ 3 =
      (.error (.valueError "flip_rate must be between 0 and 1 inclusive"), ⟨[]⟩) ∧
    (∀ msg, (DataReader.training_data_label_bias
        ⟨[("Target", false)], "train.csv", "test.csv", ["Target"], []⟩ [] ⟨[]⟩ 1).1 ≠
      .error (.valueError msg)) ∧
    isFile ([] : FileSystem) "train.csv" = false ∧
    (∃ msg, DataReader.init [] [("Target", false)] "train.csv" "test.csv"
        ["Target"] [] = .error (.valueError msg)) :=
  ⟨Or.inr (by decide),
   config_and_validation_errors.1 _ _ _ 3 (Or.inr (by decide)),
   config_and_validation_errors.2.1 _ _ _ 1 zero_le_one le_rfl,
   rfl,
   config_and_validation_errors.2.2 [] [("Target", false)] "train.csv"
     "test.csv" ["Target"] [] (Or.inl rfl)⟩

/-- C4 fails as stated: at the valid grid specification
`(min, max, step) = (0, 1, 3/10)` the enumerated grid
`np.arange(0, 1 + 3/10, 3/10)` has 5 points, not
`floor((max-min)/step) + 1 = 4`, its last flip rate is `6/5`, not
`max = 1`, and the point `6/5` lies beyond `max`. -/
theorem grid_overshoot_counterexample :
    (variable_args 0 1 (3/10)).map Prod.fst = [0, 3/10, 3/5, 9/10, 6/5] ∧
    (variable_args 0 1 (3/10)).length = 5 ∧
    (⌊(((1 : ℚ) - 0) / (3/10))⌋).toNat + 1 = 4 ∧
    ¬ (∀ p ∈ variable_args 0 1 (3/10), p.1 ≤ 1) := by
  refine ⟨?_, ?_, ?_, ?_⟩ <;> with_unfolding_all decide

/-- C4 amended.  For a valid grid specification whose step divides the range
exactly (`max - min = k * step`, the intended usage), the generated grid has
exactly `k + 1 = floor((max-min)/step) + 1` points, starts at `min`, ends at
`max`, stays within `[min, max]`, and pairs every point with confidence
threshold 1.  (Without the divisibility hypothesis the enumeration overshoots
`max`, as `grid_overshoot_counterexample` shows.) -/
theorem grid_size_endpoints_amended (range_min range_max range_interval : ℚ)
    (k : ℕ) (hstep : 0 < range_interval)
    (hdiv : range_max - range_min = (k : ℚ) * range_interval) :
    (variable_args range_min range_max range_interval).length = k + 1 ∧
    (variable_args range_min range_max range_interval).length =
      (⌊(range_max - range_min) / range_interval⌋).toNat + 1 ∧
    (variable_args range_min range_max range_interval).head? =
      some (range_min, 1) ∧
    (variable_args range_min range_max range_interval).getLast? =
      some (range_max, 1) ∧
    (∀ p ∈ variable_args range_min range_max range_interval,
      range_min ≤ p.1 ∧ p.1 ≤ range_max ∧ p.2 = 1) := by
  have hne : range_interval ≠ 0 := ne_of_gt hstep
  have hq : (range_max + range_interval - range_min) / range_interval =
      (k : ℚ) + 1 := by
    rw [show range_max + range_interval - range_min =
        ((k : ℚ) + 1) * range_interval from by linarith]
    exact mul_div_cancel_right₀ _ hne
  have hlen : arangeLen range_min (range_max + range_interval) range_interval
      = k + 1 := by
    rw [arangeLen, ratCeil_eq_ceil, hq,
      show ((k : ℚ) + 1) = ((k + 1 : ℕ) : ℚ) from by push_cast; ring,
      Int.ceil_natCast, Int.toNat_natCast]
  have hlast : range_min + (k : ℚ) * range_interval = range_max := by
    linarith
  have hvlen : (variable_args range_min range_max range_interval).length
      = k + 1 := by
    rw [variable_args, List.length_map, arange, List.length_map,
      List.length_range, hlen]
  refine ⟨hvlen, ?_, ?_, ?_, ?_⟩
  · rw [hdiv, mul_div_cancel_right₀ _ hne, Int.floor_natCast,
      Int.toNat_natCast, hvlen]
  · rw [variable_args, arange, hlen, List.map_map, List.range_succ_eq_map]
    simp
  · rw [variable_args, arange, hlen, List.map_map, List.range_succ,
      List.map_append, List.map_singleton, List.getLast?_concat]
    simp only [Function.comp_apply]
    rw [hlast]
  · intro p hp
    simp only [variable_args, arange, List.mem_map] at hp
    obtain ⟨fr, ⟨i, hi, rfl⟩, rfl⟩ := hp
    rw [hlen] at hi
    have hik : (i : ℚ) ≤ (k : ℚ) := by
      exact_mod_cast Nat.lt_succ_iff.mp (List.mem_range.mp hi)
    refine ⟨le_add_of_nonneg_right ?_, ?_, rfl⟩
    · exact mul_nonneg (Nat.cast_nonneg i) hstep.le
    · calc range_min + (i : ℚ) * range_interval
          ≤ range_min + (k : ℚ) * range_interval := by
            have := mul_le_mul_of_nonneg_right hik hstep.le
            linarith
        _ = range_max := hlast

/-- Witness for the amended C4 at `(min, max, step) = (0, 2, 1)` with
`k = 2`: the grid is `[(0,1), (1,1), (2,1)]`. -/
theorem grid_size_endpoints_amended_witness :
    (0 : ℚ) < 1 ∧ ((2 : ℚ) - 0 = ((2 : ℕ) : ℚ) * 1) ∧
    ((variable_args 0 2 1).length = 2 + 1 ∧
     (variable_args 0 2 1).length = (⌊(((2 : ℚ) - 0) / 1)⌋).toNat + 1 ∧
     (variable_args 0 2 1).head? = some (0, 1) ∧
     (variable_args 0 2 1).getLast? = some (2, 1) ∧
     (∀ p ∈ variable_args 0 2 1, (0 : ℚ) ≤ p.1 ∧ p.1 ≤ 2 ∧ p.2 = 1)) :=
  ⟨one_pos, by simp,
   grid_size_endpoints_amended 0 2 1 2 one_pos (by simp)⟩

theorem fetch_ok_row (attempt : ℕ → Option Metrics) (fr ct : ℚ)
    (r : ResultRow) (f n : ℕ)
    (h : label_bias_fetch_train_constrain attempt fr ct = (.ok r f, n)) :
    r.flip_rate = fr ∧ r.confidence_threshold = ct := by
  simp only [label_bias_fetch_train_constrain] at h
  cases hp : (run_attempts attempt 0 5).1 with
  | none => simp [hp] at h
  | some mk =>
    obtain ⟨m, k⟩ := mk
    simp only [hp] at h
    rw [Prod.mk.injEq] at h
    obtain ⟨h1, -⟩ := h
    rw [EvalOutcome.ok.injEq] at h1
    obtain ⟨hr, -⟩ := h1
    rw [← hr]
    exact ⟨rfl, rfl⟩

theorem collect_point_rows (attempt : ℚ × ℚ → ℕ → Option Metrics) :
    ∀ (args : List (ℚ × ℚ)) (rs : List (ResultRow × ℕ)),
      collectResults (point_outcome attempt) args = some rs →
      (rs.map fun r => (r.1.flip_rate, r.1.confidence_threshold)) = args := by
  intro args
  induction args with
  | nil =>
    intro rs h
    simp only [collectResults] at h
    injection h with h'
    subst h'
    rfl
  | cons a as ih =>
    intro rs h
    obtain ⟨a1, a2⟩ := a
    simp only [collectResults] at h
    cases hfa : point_outcome attempt (a1, a2) with
    | none => simp [hfa] at h
    | some b =>
      cases hcs : collectResults (point_outcome attempt) as with
      | none => simp [hfa, hcs] at h
      | some bs =>
        simp only [hfa, hcs] at h
        injection h with h'
        subst h'
        rw [List.map_cons, ih bs hcs]
        congr 1
        rw [point_outcome] at hfa
        cases hfetch : label_bias_fetch_train_constrain (attempt (a1, a2))
            (a1, a2).1 (a1, a2).2 with
        | mk o nn =>
          rw [hfetch] at hfa
          cases o with
          | unboundLocalError => simp at hfa
          | ok r f =>
            simp only at hfa
            injection hfa with hb
            subst hb
            have hrow := fetch_ok_row (attempt (a1, a2)) (a1, a2).1 (a1, a2).2
              r f nn hfetch
            simp [hrow.1, hrow.2]

theorem trial_rows_keys (attempt : ℚ × ℚ → ℕ → Option Metrics)
    (range_interval range_max range_min : ℚ) (trial_num : ℕ)
    (rows : List TrialRow) (fails : ℕ)
    (h : label_bias_trial attempt range_interval range_max range_min trial_num
        = some (rows, fails)) :
    rows.map TrialRow.key =
      (variable_args range_min range_max range_interval).map
        fun p => (trial_num, p.1, p.2) := by
  rw [label_bias_trial] at h
  cases hc : collectResults (point_outcome attempt)
      (variable_args range_min range_max range_interval) with
  | none => rw [hc] at h; cases h
  | some rs =>
    rw [hc] at h
    injection h with h'
    rw [Prod.mk.injEq] at h'
    obtain ⟨hrows, -⟩ := h'
    subst hrows
    calc (rs.map fun r => (⟨trial_num, r.1⟩ : TrialRow)).map TrialRow.key
        = (rs.map fun r => (r.1.flip_rate, r.1.confidence_threshold)).map
            (fun q => (trial_num, q.1, q.2)) := by
          rw [List.map_map, List.map_map]
          rfl
      _ = (variable_args range_min range_max range_interval).map
            fun q => (trial_num, q.1, q.2) := by
          rw [collect_point_rows attempt _ rs hc]

theorem collect_trials_keys (attempt : ℕ → ℚ × ℚ → ℕ → Option Metrics)
    (range_interval range_max range_min : ℚ) :
    ∀ (l : List ℕ) (ts : List (List TrialRow × ℕ)),
      collectResults (fun t => label_bias_trial (attempt t) range_interval
        range_max range_min t) l = some ts →
      (ts.map Prod.fst).map (List.map TrialRow.key) =
        l.map fun t =>
          (variable_args range_min range_max range_interval).map
            fun p => (t, p.1, p.2) := by
  intro l
  induction l with
  | nil =>
    intro ts h
    simp only [collectResults] at h
    injection h with h'
    subst h'
    rfl
  | cons t l ih =>
    intro ts h
    simp only [collectResults] at h
    cases hft : label_bias_trial (attempt t) range_interval range_max
        range_min t with
    | none => simp [hft] at h
    | some pr =>
      obtain ⟨rows, fails⟩ := pr
      cases hcs : collectResults (fun t => label_bias_trial (attempt t)
          range_interval range_max range_min t) l with
      | none => simp [hft, hcs] at h
      | some ts' =>
        simp only [hft, hcs] at h
        injection h with h'
        subst h'
        simp only [List.map_cons]
        rw [ih ts' hcs,
          trial_rows_keys (attempt t) range_interval range_max range_min t
            rows fails hft]

theorem variable_args_nodup (range_min range_max range_interval : ℚ)
    (hstep : 0 < range_interval) :
    (variable_args range_min range_max range_interval).Nodup := by
  have hne : range_interval ≠ 0 := ne_of_gt hstep
  rw [variable_args, arange]
  refine List.Nodup.map ?_ (List.Nodup.map ?_ (List.nodup_range _))
  · intro x y hxy
    simpa using hxy
  · intro i j hij
    have : (i : ℚ) * range_interval = (j : ℚ) * range_interval := by
      have := hij
      simp only at this
      linarith
    exact_mod_cast mul_right_cancel₀ hne this

/-- C6.  For every attempt oracle, step > 0 and trial count T ≥ 1, whenever
the sweep completes, the resulting table has exactly
`T × (grid size)` rows and the `(trial, flip_rate, confidence_threshold)`
keys of its rows are pairwise distinct. -/
theorem sweep_row_count_and_key_nodup
    (attempt : ℕ → ℚ × ℚ → ℕ → Option Metrics)
    (range_interval range_max range_min : ℚ) (trial_count : ℕ)
    (sweep : List TrialRow)
    (hstep : 0 < range_interval) (_hT : 1 ≤ trial_count)
    (h : analyze_label_bias attempt range_interval range_max range_min
        trial_count = some sweep) :
    sweep.length =
      trial_count * (variable_args range_min range_max range_interval).length ∧
    (sweep.map TrialRow.key).Nodup := by
  rw [analyze_label_bias] at h
  cases hc : collectResults (fun t => label_bias_trial (attempt t)
      range_interval range_max range_min t) (List.range' 1 trial_count) with
  | none => rw [hc] at h; cases h
  | some ts =>
    rw [hc] at h
    injection h with h'
    subst h'
    have hkeys : ((ts.map Prod.fst).flatten).map TrialRow.key =
        ((List.range' 1 trial_count).map fun t =>
          (variable_args range_min range_max range_interval).map
            fun p => (t, p.1, p.2)).flatten := by
      rw [List.map_flatten,
        collect_trials_keys attempt range_interval range_max range_min
          (List.range' 1 trial_count) ts hc]
    constructor
    · have hlen := congrArg List.length hkeys
      rw [List.length_map] at hlen
      rw [hlen, List.length_flatten, List.map_map]
      rw [show (List.length ∘ fun t =>
            (variable_args range_min range_max range_interval).map
              fun p => ((t : ℕ), p.1, p.2))
          = fun _ : ℕ =>
            (variable_args range_min range_max range_interval).length from
          funext fun t => List.length_map _ _]
      rw [List.map_const', List.sum_replicate, List.length_range',
        smul_eq_mul]
    · rw [hkeys, List.nodup_flatten]
      constructor
      · intro ks hks
        rw [List.mem_map] at hks
        obtain ⟨t, -, rfl⟩ := hks
        refine List.Nodup.map ?_ (variable_args_nodup _ _ _ hstep)
        intro p q hpq
        obtain ⟨p1, p2⟩ := p
        obtain ⟨q1, q2⟩ := q
        simp only [Prod.mk.injEq] at hpq
        obtain ⟨-, h1, h2⟩ := hpq
        rw [h1, h2]
      · rw [List.pairwise_map]
        refine (List.nodup_range' 1 trial_count).imp ?_
        intro a b hab x hxa hxb
        rw [List.mem_map] at hxa hxb
        obtain ⟨p, -, rfl⟩ := hxa
        obtain ⟨q, -, hq⟩ := hxb
        exact hab (congrArg Prod.fst hq).symm

/-- Witness for C6: two trials over the grid `{0, 1}` with an
always-succeeding oracle produce a 4-row sweep with 4 distinct keys. -/
theorem sweep_row_count_and_key_nodup_witness :
    (0 : ℚ) < 1 ∧ 1 ≤ 2 ∧
    analyze_label_bias (fun _ _ _ => some ⟨1, 1, 1, 1⟩) 1 1 0 2 =
      some [⟨1, mkResultRow 0 1 ⟨1, 1, 1, 1⟩⟩, ⟨1, mkResultRow 1 1 ⟨1, 1, 1, 1⟩⟩,
            ⟨2, mkResultRow 0 1 ⟨1, 1, 1, 1⟩⟩, ⟨2, mkResultRow 1 1 ⟨1, 1, 1, 1⟩⟩] ∧
    (([⟨1, mkResultRow 0 1 ⟨1, 1, 1, 1⟩⟩, ⟨1, mkResultRow 1 1 ⟨1, 1, 1, 1⟩⟩,
       ⟨2, mkResultRow 0 1 ⟨1, 1, 1, 1⟩⟩,
       ⟨2, mkResultRow 1 1 ⟨1, 1, 1, 1⟩⟩] : List TrialRow).length =
        2 * (variable_args 0 1 1).length ∧
     (([⟨1, mkResultRow 0 1 ⟨1, 1, 1, 1⟩⟩, ⟨1, mkResultRow 1 1 ⟨1, 1, 1, 1⟩⟩,
        ⟨2, mkResultRow 0 1 ⟨1, 1, 1, 1⟩⟩,
        ⟨2, mkResultRow 1 1 ⟨1, 1, 1, 1⟩⟩] : List TrialRow).map
          TrialRow.key).Nodup) :=
  ⟨one_pos, by decide, by with_unfolding_all decide,
   sweep_row_count_and_key_nodup (fun _ _ _ => some ⟨1, 1, 1, 1⟩) 1 1 0 2 _
     one_pos (by decide) (by with_unfolding_all decide)⟩

theorem apply_completions_spec {α : Type} (eval : ℕ → α) :
    ∀ (order : List ℕ) (buffer : ℕ → Option α) (i : ℕ),
      (i ∈ order → apply_completions eval order buffer i = some (eval i)) ∧
      (i ∉ order → apply_completions eval order buffer i = buffer i) := by
  intro order
  induction order with
  | nil =>
    intro buffer i
    exact ⟨fun h => absurd h (List.not_mem_nil i), fun _ => rfl⟩
  | cons j rest ih =>
    intro buffer i
    constructor
    · intro hmem
      by_cases hir : i ∈ rest
      · exact (ih _ i).1 hir
      · have hij : i = j := by
          rcases List.mem_cons.mp hmem with h | h
          · exact h
          · exact absurd h hir
        rw [apply_completions, (ih _ i).2 hir, if_pos hij, hij]
    · intro hmem
      have h' := List.mem_cons.not.mp hmem
      rw [not_or] at h'
      rw [apply_completions, (ih _ i).2 h'.2, if_neg h'.1]

/-- C7.  For every worker completion order that is a permutation of the
dispatched point indices, reading the result buffer back in dispatch order
yields exactly the dispatch-order results: the i-th row of the gathered
trial results is the result of the i-th dispatched Parameter Point,
independent of which worker finished first. -/
theorem gather_restores_dispatch_order (rowOf : ℚ × ℚ → ResultRow)
    (range_interval range_max range_min : ℚ) (order : List ℕ)
    (hperm : order.Perm
      (List.range (variable_args range_min range_max range_interval).length)) :
    trial_pool_results rowOf range_interval range_max range_min order =
      (variable_args range_min range_max range_interval).map
        fun p => some (rowOf p) := by
  rw [trial_pool_results, pool_starmap_gather]
  refine List.ext_getElem ?_ ?_
  · rw [List.length_map, List.length_range, List.length_map]
  · intro n h1 h2
    rw [List.length_map, List.length_range] at h1
    rw [List.getElem_map, List.getElem_range, List.getElem_map]
    have hmem : n ∈ order := hperm.mem_iff.mpr (List.mem_range.mpr h1)
    rw [(apply_completions_spec _ order _ n).1 hmem,
      List.getD_eq_getElem _ _ h1]

/-- Witness for C7: grid `{0, 1}` dispatched as points 0 and 1, workers
completing in the reversed order `[1, 0]`, and the gathered rows still in
dispatch order. -/
theorem gather_restores_dispatch_order_witness :
    List.Perm [1, 0] (List.range (variable_args 0 1 1).length) ∧
    trial_pool_results (fun p => mkResultRow p.1 p.2 ⟨1, 1, 1, 1⟩) 1 1 0
        [1, 0] =
      (variable_args 0 1 1).map
        fun p => some (mkResultRow p.1 p.2 ⟨1, 1, 1, 1⟩) :=
  ⟨by with_unfolding_all decide,
   gather_restores_dispatch_order (fun p => mkResultRow p.1 p.2 ⟨1, 1, 1, 1⟩)
     1 1 0 [1, 0] (by with_unfolding_all decide)⟩
